import Mathlib

/-
  Verification development for the Time Series Brush Slicer visual
  (src/visual.ts of the Time-Series-Brush-Slicer repository).

  Shallow embedding conventions:
  * JS numbers are modelled as exact rationals (ℚ); `none : Option ℚ` models NaN
    where NaN can be observed.
  * Timestamps are integer milliseconds since the Unix epoch (Int, `Date#getTime`).
  * Host/runtime primitives that are not repository code — `new Date(string)`,
    `Number(string)`, `parseFloat(string)`, `String(object)` — are modelled as
    oracle functions collected in the `JsHost` structure.
  * Stateful fields of the `Visual` class are carried in explicit state records;
    DOM work (which has no bearing on the verified claims) is dropped.
-/

/-- A JavaScript number as observed by the visual: `none` models NaN. -/
abbrev JsNum := Option ℚ

/-- A raw cell of the tabular data view, as JavaScript values.
`other` stands for any non-null object that is neither a Date nor a primitive. -/
inductive Cell where
  | nullv
  | undef
  | num (q : ℚ)
  | nan
  | str (s : String)
  | date (ms : Int)
  | dateInvalid
  | boolv (b : Bool)
  | other
deriving DecidableEq, Repr

/-- Host/runtime primitives used by visual.ts but not defined by it. -/
structure JsHost where
  /-- `new Date(s).getTime()` for a string `s`; `none` = invalid date (NaN). -/
  parseDateStr : String → Option Int
  /-- `Number(s)` for a string `s`; `none` = NaN. -/
  numOfStr : String → Option ℚ
  /-- `String(c)` for a non-string cell `c`. -/
  strOfCell : Cell → String
  /-- `parseFloat(s)`; `none` = NaN. -/
  parseFloatStr : String → Option ℚ

/-- JavaScript truthiness of a cell. -/
def cellTruthy : Cell → Bool
  | .nullv => false
  | .undef => false
  | .num q => decide (q ≠ 0)
  | .nan => false
  | .str s => decide (s ≠ "")
  | .date _ => true
  | .dateInvalid => true
  | .boolv b => b
  | .other => true

/-- JavaScript `Number(cell)`; `none` models NaN. -/
def jsNumber (js : JsHost) : Cell → JsNum
  | .nullv => some 0
  | .undef => none
  | .num q => some q
  | .nan => none
  | .str s => js.numOfStr s
  | .date ms => some (ms : ℚ)
  | .dateInvalid => none
  | .boolv b => some (if b then 1 else 0)
  | .other => none

/-- JavaScript `String(cell)`. -/
def jsString (js : JsHost) : Cell → String
  | .str s => s
  | c => js.strOfCell c

/-- JavaScript ToInteger truncation (toward zero) of a rational. -/
def ratTrunc (q : ℚ) : Int := if q < 0 then q.ceil else q.floor

/-- The `parseDate` helper of `parseData` (visual.ts lines 691-709): Date
instances keep their time value, numbers and strings go through the Date
constructor, anything else yields null; an NaN time value also yields null.
A finite numeric time value is valid iff its magnitude is within the
ECMAScript time range (8.64e15 ms). -/
def parseDate (js : JsHost) : Cell → Option Int
  | .date ms => some ms
  | .dateInvalid => none
  | .num q =>
      let t := ratTrunc q
      if t.natAbs ≤ 8640000000000000 then some t else none
  | .nan => none
  | .str s => js.parseDateStr s
  | .nullv => none
  | .undef => none
  | .boolv _ => none
  | .other => none

/-- The `TimeDataPoint` interface of visual.ts (the host-opaque `selectionId`
is omitted; it never influences the verified behavior). The `anomaly` field
stores a JS number that may itself be NaN (the source applies no NaN check
when reading anomaly cells). -/
structure TimeDataPoint where
  timestamp : Int
  value : Option ℚ
  series : String
  anomaly : Option JsNum
  timelineMarker : Option String
  lineColor : Option String
  areaColor : Option String
  index : Int
deriving DecidableEq, Repr

/-- Role flags of a data view column. -/
structure ColumnRoles where
  timestamp : Bool
  values : Bool
  anomalies : Bool
  timelineMarkers : Bool
  filterField : Bool
deriving DecidableEq, Repr

/-- A category column: roles, cells, the per-row conditional-formatting
colors already drilled out of `objects[i].dataPoint.fill.solid.color` and
`objects[i].areaSettingsGroup.fill.solid.color` (host data shape), and the
`source.queryName` / `source.displayName` metadata used by the filter-target
identification (`none` models an absent queryName; a JS column whose `roles`
object is absent is modelled by all-false roles). -/
structure CategoryColumn where
  roles : ColumnRoles
  values : List Cell
  objectColors : List (Option String × Option String)
  queryName : Option String
  displayName : String
deriving DecidableEq, Repr

/-- A measure column inside a series group. -/
structure MeasureColumn where
  roles : ColumnRoles
  values : List Cell
deriving DecidableEq, Repr

/-- One group of `categorical.values.grouped()`. `name` is the group name
(`none` models an absent name). -/
structure SeriesGroup where
  name : Option String
  values : List MeasureColumn
deriving DecidableEq, Repr

/-- The categorical part of a data view. -/
structure CategoricalData where
  categories : Option (List CategoryColumn)
  values : Option (List SeriesGroup)
deriving DecidableEq, Repr

/-- A data view (`options.dataViews[0]`). -/
structure DataViewModel where
  categorical : Option CategoricalData
deriving DecidableEq, Repr

/-- Convenience constructor for a well-formed categorical data view. -/
def mkDataView (cats : List CategoryColumn) (groups : List SeriesGroup) :
    Option DataViewModel :=
  some ⟨some ⟨some cats, some groups⟩⟩

/-- `group.name ? String(group.name) : "default"` (empty names are falsy). -/
def seriesNameOf (g : SeriesGroup) : String :=
  match g.name with
  | some s => if s = "" then "default" else s
  | none => "default"

/-- `Map.set` on an integer-keyed map held as an association list
(JS Map: overwrite on existing key, append otherwise). -/
def markerMapSet (m : List (Int × String)) (k : Int) (v : String) :
    List (Int × String) :=
  match m with
  | [] => [(k, v)]
  | (k', v') :: rest =>
      if k' = k then (k, v) :: rest else (k', v') :: markerMapSet rest k v

/-- First pass of `parseData` for one group: collect timeline markers
(visual.ts lines 719-734). -/
def groupMarkerPass (js : JsHost) (timestamps : List Cell) (g : SeriesGroup)
    (m0 : List (Int × String)) : List (Int × String) :=
  match g.values.find? (fun v => v.roles.timelineMarkers) with
  | none => m0
  | some mkCol =>
      (List.range timestamps.length).foldl (fun m i =>
        match parseDate js (timestamps.getD i .undef) with
        | none => m
        | some time =>
            let cell := mkCol.values.getD i .undef
            if cellTruthy cell then
              let s := jsString js cell
              if s.trim ≠ "" then markerMapSet m time s else m
            else m) m0

/-- The global timeline-marker map built across all groups
(visual.ts lines 714-734). -/
def globalMarkers (js : JsHost) (timestamps : List Cell)
    (groups : List SeriesGroup) : List (Int × String) :=
  groups.foldl (fun m g => groupMarkerPass js timestamps g m) []

/-- Value-cell coercion (visual.ts lines 748-759): null/undefined/"" yield a
null value; otherwise `Number(cell)`, kept only when not NaN. -/
def parseValueCell (js : JsHost) (cell : Cell) : Option ℚ :=
  if cell = .nullv ∨ cell = .undef then none
  else if cell = .str "" then none
  else jsNumber js cell

/-- The value of row `i` in group `g`. -/
def rowValue (js : JsHost) (g : SeriesGroup) (i : Nat) : Option ℚ :=
  match g.values.find? (fun v => v.roles.values) with
  | none => none
  | some vm => parseValueCell js (vm.values.getD i .undef)

/-- Anomaly-cell coercion (visual.ts lines 761-767): null/undefined/"" yield
undefined, otherwise `Number(cell)` is stored — with no NaN check. -/
def parseAnomalyCell (js : JsHost) (cell : Cell) : Option JsNum :=
  if cell = .nullv ∨ cell = .undef then none
  else if cell = .str "" then none
  else some (jsNumber js cell)

/-- The anomaly of row `i` in group `g`. -/
def rowAnomaly (js : JsHost) (g : SeriesGroup) (i : Nat) : Option JsNum :=
  match g.values.find? (fun v => v.roles.anomalies) with
  | none => none
  | some am => parseAnomalyCell js (am.values.getD i .undef)

/-- Conditional-formatting colors of row `i` (line color, area color). -/
def rowColors (cat : CategoryColumn) (i : Nat) : Option String × Option String :=
  cat.objectColors.getD i (none, none)

/-- The data point pushed by the `parseData` row loop for group `g`, row `i`,
parsed time `t` (visual.ts lines 810-820). -/
def groupPoint (js : JsHost) (tsCat : CategoryColumn)
    (markers : List (Int × String)) (g : SeriesGroup) (i : Nat) (t : Int) :
    TimeDataPoint :=
  { timestamp := t
    value := rowValue js g i
    series := seriesNameOf g
    anomaly := rowAnomaly js g i
    timelineMarker := markers.lookup t
    lineColor := (rowColors tsCat i).1
    areaColor := (rowColors tsCat i).2
    index := (i : Int) }

/-- All points pushed for one group: rows whose timestamp cell fails to parse
are skipped (visual.ts lines 744-746). -/
def groupPoints (js : JsHost) (tsCat : CategoryColumn)
    (markers : List (Int × String)) (g : SeriesGroup) : List TimeDataPoint :=
  (List.range tsCat.values.length).filterMap (fun i =>
    (parseDate js (tsCat.values.getD i .undef)).map (groupPoint js tsCat markers g i))

/-- `this.data` right after the push loops of `parseData`
(visual.ts lines 668-822), before gap post-processing. -/
def rawPoints (js : JsHost) (dv : Option DataViewModel) : List TimeDataPoint :=
  match dv with
  | none => []
  | some d =>
    match d.categorical with
    | none => []
    | some cat =>
      match cat.categories, cat.values with
      | some cats, some groups =>
          if cats.isEmpty then []
          else
            match cats.find? (fun c => c.roles.timestamp) with
            | none => []
            | some tsCat =>
                if tsCat.values.isEmpty then []
                else
                  let markers := globalMarkers js tsCat.values groups
                  groups.flatMap (groupPoints js tsCat markers)
      | _, _ => []

/-- `d.series || "default"` — the grouping key used by both `parseData`
post-processing and `renderChart`. -/
def seriesKey (p : TimeDataPoint) : String :=
  if p.series = "" then "default" else p.series

/-- Decidability of the timestamp comparator `(a, b) => a.timestamp - b.timestamp`
read as the ordering relation it induces. -/
def tsLeDec : DecidableRel (fun a b : TimeDataPoint => a.timestamp ≤ b.timestamp) :=
  fun a b => Int.decLe a.timestamp b.timestamp

/-- The JS stable sort by timestamp, modelled by insertion sort (stable). -/
def sortByTime (l : List TimeDataPoint) : List TimeDataPoint :=
  @List.insertionSort TimeDataPoint (fun a b => a.timestamp ≤ b.timestamp) tsLeDec l

/-- Key list of an insertion-ordered JS `Map`, keys in first-appearance order. -/
def firstKeysAux : List String → List String → List String
  | _, [] => []
  | seen, k :: rest =>
      if k ∈ seen then firstKeysAux seen rest
      else k :: firstKeysAux (k :: seen) rest

/-- The iteration order of the `seriesMap` built in `parseData`
(visual.ts lines 834-839): series names in order of first appearance. -/
def firstKeys (l : List String) : List String := firstKeysAux [] l

/-- The synthetic absent-value point inserted to break a gap
(visual.ts lines 880-888). -/
def gapPoint (series : String) (t : Int) : TimeDataPoint :=
  { timestamp := t
    value := none
    series := series
    anomaly := none
    timelineMarker := none
    lineColor := none
    areaColor := none
    index := -1 }

/-- The positive consecutive timestamp deltas of a (sorted) series
(visual.ts lines 853-857). -/
def positiveDiffs (l : List TimeDataPoint) : List Int :=
  ((l.zip l.tail).map (fun pq => pq.2.timestamp - pq.1.timestamp)).filter
    (fun d => decide (0 < d))

/-- The median positive delta: the sorted deltas indexed at `⌊n/2⌋`, 0 when
there are none (visual.ts lines 858-863). -/
def medianDiff (l : List TimeDataPoint) : Int :=
  let diffs := (positiveDiffs l).insertionSort (· ≤ ·)
  if diffs.isEmpty then 0 else diffs.getD (diffs.length / 2) 0

/-- The gap-insertion loop of `parseData` (visual.ts lines 871-891), walking
the sorted points with the previous point at hand. -/
def gapProcessGo (series : String) (m thr : Int) :
    TimeDataPoint → List TimeDataPoint → List TimeDataPoint
  | _, [] => []
  | prev, curr :: rest =>
      (if 0 < thr ∧ thr < curr.timestamp - prev.timestamp
       then [gapPoint series (prev.timestamp + m)] else [])
        ++ curr :: gapProcessGo series m thr curr rest

/-- Per-series gap detection (visual.ts lines 843-892): series with fewer than
2 points are passed through; otherwise the threshold is 3× the median positive
delta (0 when the median is 0, which disables insertion). -/
def gapProcess (series : String) (points : List TimeDataPoint) :
    List TimeDataPoint :=
  if points.length < 2 then points
  else
    match points with
    | [] => []
    | p0 :: rest =>
        let m := medianDiff points
        let thr := if 0 < m then m * 3 else 0
        p0 :: gapProcessGo series m thr p0 rest

/-- The gap post-processing of `parseData` (visual.ts lines 832-895): group by
series in first-appearance order, sort each series, insert gap points, then
sort the merged result by timestamp. -/
def postProcess (l : List TimeDataPoint) : List TimeDataPoint :=
  let keys := firstKeys (l.map seriesKey)
  let newData := keys.flatMap
    (fun s => gapProcess s (sortByTime (l.filter (fun p => decide (seriesKey p = s)))))
  sortByTime newData

/-- The full `parseData` (visual.ts lines 668-896). -/
def parseData (js : JsHost) (dv : Option DataViewModel) : List TimeDataPoint :=
  postProcess (rawPoints js dv)

/-- `d3.extent(this.data, d => d.timestamp)` (only ever called on nonempty
data; the empty case is unreachable behind `update`'s guards). -/
def timeExtent (data : List TimeDataPoint) : Int × Int :=
  match data with
  | [] => (0, 0)
  | p :: rest =>
      (rest.foldl (fun m q => min m q.timestamp) p.timestamp,
       rest.foldl (fun m q => max m q.timestamp) p.timestamp)

/-- Days-since-epoch to civil (year, month 1-12, day 1-31) in the proleptic
Gregorian calendar (the ECMAScript UTC calendar). -/
def civilFromDays (z0 : Int) : Int × Nat × Nat :=
  let z := z0 + 719468
  let era := z.ediv 146097
  let doe := (z.emod 146097).toNat
  let yoe := (doe - doe / 1460 + doe / 36524 - doe / 146096) / 365
  let doy := doe - (365 * yoe + yoe / 4 - yoe / 100)
  let mp := (5 * doy + 2) / 153
  let d := doy - (153 * mp + 2) / 5 + 1
  let m := if mp < 10 then mp + 3 else mp - 9
  let y := era * 400 + (yoe : Int)
  (if m ≤ 2 then y + 1 else y, m, d)

/-- The UTC calendar decomposition of a time value (`Date` UTC getters;
`monthIdx` is 0-based like `getMonth`). -/
structure DateParts where
  year : Int
  monthIdx : Nat
  day : Nat
  hour : Nat
  minute : Nat
  second : Nat
  milli : Nat
deriving DecidableEq, Repr

/-- UTC date parts of an epoch-millisecond time value. -/
def dateParts (t : Int) : DateParts :=
  let msod := (t.emod 86400000).toNat
  let ymd := civilFromDays (t.ediv 86400000)
  { year := ymd.1
    monthIdx := ymd.2.1 - 1
    day := ymd.2.2
    hour := msod / 3600000
    minute := msod / 60000 % 60
    second := msod / 1000 % 60
    milli := msod % 1000 }

/-- `n.toString().padStart(len, "0")`. -/
def padNum (n : Nat) (len : Nat) : String :=
  let s := toString n
  String.mk (List.replicate (len - s.length) '0') ++ s

/-- `Date#toISOString`: the fixed millisecond-precision UTC ISO-8601 format
`YYYY-MM-DDTHH:mm:ss.sssZ` (expanded ±YYYYYY form outside years 0-9999). -/
def toISOString (t : Int) : String :=
  let p := dateParts t
  let ys :=
    if 0 ≤ p.year ∧ p.year ≤ 9999 then padNum p.year.toNat 4
    else if p.year < 0 then "-" ++ padNum (-p.year).toNat 6
    else "+" ++ padNum p.year.toNat 6
  ys ++ "-" ++ padNum (p.monthIdx + 1) 2 ++ "-" ++ padNum p.day 2 ++ "T" ++
    padNum p.hour 2 ++ ":" ++ padNum p.minute 2 ++ ":" ++ padNum p.second 2 ++
    "." ++ padNum p.milli 3 ++ "Z"

/-- Left-to-right, non-overlapping replacement of all occurrences of a literal
token, as `String#replace` with a global literal regex; the replacement text
is not rescanned. Fuel-driven; `s.length` fuel always suffices. -/
def replaceTokAux (tok rep : List Char) : Nat → List Char → List Char
  | 0, s => s
  | _ + 1, [] => []
  | fuel + 1, c :: rest =>
      if tok.isPrefixOf (c :: rest) then
        rep ++ replaceTokAux tok rep fuel (List.drop tok.length (c :: rest))
      else c :: replaceTokAux tok rep fuel rest

/-- Replace every occurrence of the literal `tok` in `s` by `rep`. -/
def replaceTokL (tok rep : String) (s : List Char) : List Char :=
  replaceTokAux tok.data rep.data s.length s

/-- ASCII lowercase test, the `[a-z]` character class. -/
def isLowerAlpha (c : Char) : Bool := 'a' ≤ c && c ≤ 'z'

/-- Replacement for the single-character tokens guarded by a `(?![a-z])`
negative lookahead (the lookahead consumes nothing). -/
def replaceCharNL (tok : Char) (rep : String) : List Char → List Char
  | [] => []
  | c :: rest =>
      if c == tok && (match rest with | [] => true | d :: _ => !isLowerAlpha d) then
        rep.data ++ replaceCharNL tok rep rest
      else c :: replaceCharNL tok rep rest

/-- `months` of `createDateFormatter`. -/
def monthShortNames : List String :=
  ["Jan", "Feb", "Mar", "Apr", "May", "Jun", "Jul", "Aug", "Sep", "Oct", "Nov", "Dec"]

/-- `fullMonths` of `createDateFormatter`. -/
def monthLongNames : List String :=
  ["January", "February", "March", "April", "May", "June", "July", "August",
   "September", "October", "November", "December"]

/-- The formatter produced by `createDateFormatter` (visual.ts lines
1223-1264): the chain of token substitutions, in source order. The `Date`
getters used there are local-time getters; `tz` is the (constant) offset of
local time from UTC in milliseconds, so the parts are taken at `t + tz`.
(The memoization cache is pure and does not change the produced string.) -/
def createDateFormatter (tz : Int) (format : String) (t : Int) : String :=
  let p := dateParts (t + tz)
  let yearStr := toString p.year
  let h12 := if p.hour % 12 = 0 then 12 else p.hour % 12
  let r0 := format.data
  let r1 := replaceTokL "yyyy" yearStr r0
  let r2 := replaceTokL "yy" (String.mk (yearStr.data.drop (yearStr.data.length - 2))) r1
  let r3 := replaceTokL "MMMM" (monthLongNames.getD p.monthIdx "") r2
  let r4 := replaceTokL "MMM" (monthShortNames.getD p.monthIdx "") r3
  let r5 := replaceTokL "MM" (padNum (p.monthIdx + 1) 2) r4
  let r6 := replaceCharNL 'M' (toString (p.monthIdx + 1)) r5
  let r7 := replaceTokL "dd" (padNum p.day 2) r6
  let r8 := replaceCharNL 'd' (toString p.day) r7
  let r9 := replaceTokL "HH" (padNum p.hour 2) r8
  let r10 := replaceCharNL 'H' (toString p.hour) r9
  let r11 := replaceTokL "hh" (padNum h12 2) r10
  let r12 := replaceCharNL 'h' (toString h12) r11
  let r13 := replaceTokL "mm" (padNum p.minute 2) r12
  let r14 := replaceCharNL 'm' (toString p.minute) r13
  let r15 := replaceTokL "ss" (padNum p.second 2) r14
  let r16 := replaceCharNL 's' (toString p.second) r15
  let r17 := replaceTokL "fff" (padNum p.milli 3) r16
  let r18 := replaceTokL "tt" (if 12 ≤ p.hour then "PM" else "AM") r17
  let r19 := replaceTokL "t" (if 12 ≤ p.hour then "P" else "A") r18
  String.mk r19

/-- JS `x || dflt` for a possibly-undefined number (`d3.min(...) || 0` and
`d3.max(...) || 1` in visual.ts lines 396-397): undefined and 0 are falsy. -/
def jsOrElse (v : Option ℚ) (dflt : ℚ) : ℚ :=
  match v with
  | none => dflt
  | some q => if q = 0 then dflt else q

/-- One manual axis-bound setting: `if (s && !isNaN(parseFloat(s))) cur = parseFloat(s)`
(visual.ts lines 401-404). -/
def applySetting (js : JsHost) (setting : Option String) (cur : ℚ) : ℚ :=
  match setting with
  | none => cur
  | some s =>
      if s = "" then cur
      else
        match js.parseFloatStr s with
        | some q => q
        | none => cur

/-- The per-series value domain of `renderChart` (visual.ts lines 393-421):
min/max over non-null values with `|| 0` / `|| 1` defaults, manual bounds only
when not multi-series, then ±1 expansion of a degenerate domain or 10% padding. -/
def seriesYDomain (js : JsHost) (isMulti : Bool)
    (yMinSetting yMaxSetting : Option String) (points : List TimeDataPoint) :
    ℚ × ℚ :=
  let valid := points.filterMap (fun p => p.value)
  let yMin0 := jsOrElse valid.min? 0
  let yMax0 := jsOrElse valid.max? 1
  let b :=
    if isMulti then (yMin0, yMax0)
    else (applySetting js yMinSetting yMin0, applySetting js yMaxSetting yMax0)
  if b.1 = b.2 then (b.1 - 1, b.2 + 1)
  else
    let padding := (b.2 - b.1) * (1 / 10)
    (b.1 - padding, b.2 + padding)

/-- The series names of `renderChart`'s `d3.group(this.data, d => d.series || "default")`,
in first-appearance order. -/
def seriesNamesOf (data : List TimeDataPoint) : List String :=
  firstKeys (data.map seriesKey)

/-- `isMultiSeries` of `renderChart` (visual.ts line 388). -/
def isMultiSeriesOf (data : List TimeDataPoint) : Bool :=
  let names := seriesNamesOf data
  decide (1 < names.length) ||
    (decide (names.length = 1) && decide (names.getD 0 "" ≠ "default"))

/-- The per-series y-scale domains computed by `renderChart`
(visual.ts lines 391-421), keyed by series name. -/
def yDomainsOf (js : JsHost) (yMinSetting yMaxSetting : Option String)
    (data : List TimeDataPoint) : List (String × (ℚ × ℚ)) :=
  let isMulti := isMultiSeriesOf data
  (seriesNamesOf data).map (fun s =>
    (s, seriesYDomain js isMulti yMinSetting yMaxSetting
          (data.filter (fun p => decide (seriesKey p = s)))))

/-- `anomalyPoints` of the scene composer (visual.ts line 546). -/
def anomalyPointsOf (data : List TimeDataPoint) : List TimeDataPoint :=
  data.filter (fun d => decide (d.anomaly ≠ none))

/-- One `uniqueMarkers.set` step of the scene composer: a marker-bearing point
overwrites the entry at its timestamp or is appended. -/
def uniqueMarkersStep (m : List (Int × TimeDataPoint)) (d : TimeDataPoint) :
    List (Int × TimeDataPoint) :=
  if d.timelineMarker ≠ none then
    match m.find? (fun kv => decide (kv.1 = d.timestamp)) with
    | some _ => m.map (fun kv => if kv.1 = d.timestamp then (kv.1, d) else kv)
    | none => m ++ [(d.timestamp, d)]
  else m

/-- `uniqueMarkers` of the scene composer (visual.ts lines 578-583): a map
from timestamp to the last marker-bearing point at that instant. -/
def uniqueMarkersOf (data : List TimeDataPoint) : List (Int × TimeDataPoint) :=
  data.foldl uniqueMarkersStep []

/-- `timelinePoints` (visual.ts line 584): the marker map's values. -/
def timelinePointsOf (data : List TimeDataPoint) : List TimeDataPoint :=
  (uniqueMarkersOf data).map (fun kv => kv.2)

/-- The output-format configuration read in `onBrushEnd` plus the ambient
timezone offset (local time = UTC + tz, in ms) used by the custom formatter. -/
structure OutputCfg where
  delimiter : String
  useISO : Bool
  outputFormat : String
  tzOffset : Int

/-- The `AdvancedFilter` submitted through `applyJsonFilter`
(visual.ts lines 1163-1177): an "And" filter with the single condition
`Is <formattedStart><delimiter><formattedEnd>` against `{table, column}`. -/
structure EmittedFilter where
  table : String
  column : String
  logicalOperator : String
  conditionOperator : String
  conditionValue : String
deriving DecidableEq, Repr

/-- The selection-related mutable fields of the `Visual` class. -/
structure SelState where
  isProgrammaticBrushUpdate : Bool
  selectedStartDate : Option Int
  selectedEndDate : Option Int
  filterColumnTarget : Option (String × String)
  lastTimeRange : Option (Int × Int)
deriving DecidableEq, Repr

/-- `xScale(t)`: the d3 linear time scale over `domain` with pixel range `[0, w]`. -/
def xScalePx (domain : Int × Int) (w : ℚ) (t : Int) : ℚ :=
  (((t : ℚ) - (domain.1 : ℚ)) / ((domain.2 : ℚ) - (domain.1 : ℚ))) * w

/-- `xScale.invert(x)`: the inverse mapping, truncated to integer milliseconds
by the `Date` constructor. -/
def xScaleInvert (domain : Int × Int) (w : ℚ) (x : ℚ) : Int :=
  ratTrunc ((domain.1 : ℚ) + (x / w) * ((domain.2 : ℚ) - (domain.1 : ℚ)))

/-- The date formatting used for the outbound filter string
(visual.ts lines 1150-1159). -/
def formatDateOut (cfg : OutputCfg) (t : Int) : String :=
  if cfg.useISO then toISOString t
  else createDateFormatter cfg.tzOffset cfg.outputFormat t

/-- The `onBrush` handler (visual.ts lines 1110-1128) for a non-null pixel
selection: the logical selection tracks the inverted pixel bounds
synchronously (the 16ms-debounced work only refreshes the display label). -/
def onBrush (domain : Int × Int) (w : ℚ) (st : SelState) (sel : ℚ × ℚ) :
    SelState :=
  { st with
      selectedStartDate := some (xScaleInvert domain w sel.1)
      selectedEndDate := some (xScaleInvert domain w sel.2) }

/-- The `onBrushEnd` handler (visual.ts lines 1130-1183): a cleared brush
snaps the selection to the full domain; a programmatic update emits nothing;
otherwise, with a selection and a filter target present, the combined range
string is submitted as an `AdvancedFilter` (the submission call is returned;
a host-side throw is caught and changes nothing else). -/
def onBrushEnd (cfg : OutputCfg) (domain : Int × Int) (st : SelState)
    (sel : Option (ℚ × ℚ)) : SelState × Option EmittedFilter :=
  let st1 :=
    match sel with
    | none =>
        { st with
            selectedStartDate := some domain.1
            selectedEndDate := some domain.2 }
    | some _ => st
  if st1.isProgrammaticBrushUpdate then (st1, none)
  else
    match st1.selectedStartDate, st1.selectedEndDate, st1.filterColumnTarget with
    | some s, some e, some tgt =>
        (st1, some
          { table := tgt.1
            column := tgt.2
            logicalOperator := "And"
            conditionOperator := "Is"
            conditionValue :=
              formatDateOut cfg s ++ cfg.delimiter ++ formatDateOut cfg e })
    | _, _, _ => (st1, none)

/-- `restoreBrushSelection` (visual.ts lines 1185-1204): with a retained
selection, set the programmatic guard, move the brush to the selection's pixel
positions — which synchronously fires the brush and end handlers — and clear
the guard afterwards (the 50ms timeout). The second component collects every
`applyJsonFilter` call made from the end handler during the restore. -/
def restoreBrushSelection (cfg : OutputCfg) (domain : Int × Int) (w : ℚ)
    (st : SelState) : SelState × List EmittedFilter :=
  match st.selectedStartDate, st.selectedEndDate with
  | some s, some e =>
      let x0 := xScalePx domain w s
      let x1 := xScalePx domain w e
      let st1 := { st with isProgrammaticBrushUpdate := true }
      let st2 := onBrush domain w st1 (x0, x1)
      let ste := onBrushEnd cfg domain st2 (some (x0, x1))
      ({ ste.1 with isProgrammaticBrushUpdate := false }, ste.2.toList)
  | _, _ => (st, [])

/-- How `renderChart` places the brush at the end of a render. -/
inductive BrushPlacement where
  | restore
  | forceFullRange
deriving DecidableEq, Repr

/-- The selection bookkeeping of `renderChart` (visual.ts lines 366-379 and
654-665): clear the retained selection when the data extent changed, record
the new extent, then either restore the retained selection or initialize it
to the full extent (with a forced programmatic full-range brush move). -/
def renderChartSel (st : SelState) (ext : Int × Int) :
    SelState × BrushPlacement :=
  let st1 :=
    match st.lastTimeRange with
    | some old =>
        if old ≠ ext then
          { st with selectedStartDate := none, selectedEndDate := none }
        else st
    | none => st
  let st2 := { st1 with lastTimeRange := some ext }
  match st2.selectedStartDate, st2.selectedEndDate with
  | some _, some _ => (st2, .restore)
  | _, _ =>
      ({ st2 with
          selectedStartDate := some ext.1
          selectedEndDate := some ext.2 }, .forceFullRange)

/-- The brush-relevant tail of `renderChart`: selection bookkeeping followed by
either `restoreBrushSelection` or the forced full-range `brush.move` (whose
handlers fire with the guard flag as-is, so the end handler emits the filter).
Returns the new state, the placement taken, and all emitted filter calls. -/
def renderChartBrush (cfg : OutputCfg) (st : SelState)
    (data : List TimeDataPoint) (w : ℚ) :
    SelState × BrushPlacement × List EmittedFilter :=
  let ext := timeExtent data
  let sp := renderChartSel st ext
  match sp.2 with
  | .restore =>
      let r := restoreBrushSelection cfg ext w sp.1
      (r.1, .restore, r.2)
  | .forceFullRange =>
      let st3 := onBrush ext w sp.1 (0, w)
      let ste := onBrushEnd cfg ext st3 (some (0, w))
      (ste.1, .forceFullRange, ste.2.toList)

/-- What an update cycle did. -/
inductive UpdateOutcome where
  | placeholder
  | rendered (placement : BrushPlacement)
deriving DecidableEq, Repr

/-- JS `s.lastIndexOf(c)`: the index of the last occurrence, -1 if absent. -/
def jsLastIndexOf (c : Char) (s : String) : Int :=
  match s.data.reverse.findIdx? (fun x => x == c) with
  | none => -1
  | some j => (s.data.length : Int) - 1 - (j : Int)

/-- The `{table, column}` target derived from one category column
(visual.ts lines 245-259): requires a truthy `queryName`; a query name with a
dot at a positive index is split there, otherwise the table is empty and the
column is the display name. -/
def filterTargetOfCategory (c : CategoryColumn) : Option (String × String) :=
  match c.queryName with
  | none => none
  | some qn =>
      if qn = "" then none
      else
        let dotIndex := jsLastIndexOf '.' qn
        if 0 < dotIndex then
          some (String.mk (qn.data.take dotIndex.toNat),
                String.mk (qn.data.drop (dotIndex.toNat + 1)))
        else some ("", c.displayName)

/-- The filter-target identification of `update` (visual.ts lines 226-260):
the target is reset to null, then resolved from the categories — the
filter-field-role column, else (with more than one category) a column without
the timestamp role, else the timestamp-role column — when its query name is
truthy. -/
def identifyFilterTarget (dv : Option DataViewModel) :
    Option (String × String) :=
  match dv with
  | none => none
  | some d =>
      match d.categorical with
      | none => none
      | some cd =>
          match cd.categories with
          | none => none
          | some cats =>
              let fc0 := cats.find? (fun c => c.roles.filterField)
              let fc1 :=
                match fc0 with
                | some c => some c
                | none =>
                    if 1 < cats.length then
                      cats.find? (fun c => !c.roles.timestamp)
                    else none
              let fc2 :=
                match fc1 with
                | some c => some c
                | none => cats.find? (fun c => c.roles.timestamp)
              match fc2 with
              | none => none
              | some c => filterTargetOfCategory c

/-- The `update` orchestration (visual.ts lines 159-281) restricted to the
state the claims observe: parse the data, recompute the filter target
unconditionally (lines 226-260, before any viewport or data check), validate
the viewport, short-circuit to the placeholder (`showNoDataMessage`, which
touches only the DOM) on a too-small viewport or empty data, else run the
render's selection/brush work. -/
def updateViz (cfg : OutputCfg) (js : JsHost) (st : SelState)
    (dv : Option DataViewModel) (viewportW viewportH : ℚ) (chartW : ℚ) :
    SelState × UpdateOutcome × List EmittedFilter :=
  let data := parseData js dv
  let st1 := { st with filterColumnTarget := identifyFilterTarget dv }
  let w := max 0 viewportW
  let h := max 0 viewportH
  if w < 100 ∨ h < 50 then (st1, .placeholder, [])
  else if data.length = 0 then (st1, .placeholder, [])
  else
    let r := renderChartBrush cfg st1 data chartW
    (r.1, .rendered r.2.1, r.2.2)

/-- Totality of the timestamp ordering (for sortedness of the JS sort). -/
def tsLeTotal : IsTotal TimeDataPoint (fun a b => a.timestamp ≤ b.timestamp) :=
  ⟨fun a b => Int.le_total a.timestamp b.timestamp⟩

/-- Transitivity of the timestamp ordering. -/
def tsLeTrans : IsTrans TimeDataPoint (fun a b => a.timestamp ≤ b.timestamp) :=
  ⟨fun _ _ _ h1 h2 => le_trans h1 h2⟩

/-- Modelled from the claim's words (C4): one synthetic point between each
consecutive pair whose delta exceeds the threshold, and nothing else. -/
def betweenEach (ins : TimeDataPoint → TimeDataPoint → List TimeDataPoint) :
    List TimeDataPoint → List TimeDataPoint
  | [] => []
  | [p] => [p]
  | p :: q :: rest => p :: (ins p q ++ betweenEach ins (q :: rest))

/-- Modelled from the claim's words (C6): the value domain is [min, max] over
the series' non-absent values; ±1 expansion when min = max, else 10% padding. -/
def seriesYDomainClaim (values : List ℚ) : ℚ × ℚ :=
  let mn := values.min?.getD 0
  let mx := values.max?.getD 0
  if mn = mx then (mn - 1, mx + 1)
  else (mn - (mx - mn) / 10, mx + (mx - mn) / 10)

/-- The amended C6 domain: as the claim, except that an absent minimum
defaults to 0 and a maximum that is absent or equal to 0 is replaced by 1
(the `|| 0` / `|| 1` defaulting of visual.ts lines 396-397). -/
def seriesYDomainAmended (pts : List TimeDataPoint) : ℚ × ℚ :=
  let vals := pts.filterMap (fun p => p.value)
  let mn := vals.min?.getD 0
  let mx := match vals.max? with | none => 1 | some q => if q = 0 then 1 else q
  if mn = mx then (mn - 1, mx + 1)
  else (mn - (mx - mn) / 10, mx + (mx - mn) / 10)

/-- A host-oracle valuation with no parseable strings. -/
def js0 : JsHost := ⟨fun _ => none, fun _ => none, fun _ => "", fun _ => none⟩

/-- A host-oracle valuation whose `parseFloat` understands "5" and "7". -/
def js1 : JsHost :=
  ⟨fun _ => none, fun _ => none, fun _ => "",
   fun s => if s = "5" then some 5 else if s = "7" then some 7 else none⟩

/-- ISO output configuration with the default delimiter. -/
def exCfgISO : OutputCfg := ⟨"|", true, "yyyy-MM-dd HH:mm:ss", 0⟩

/-- A settled state: selection [2, 8] inside the recorded extent [0, 10]. -/
def exStateSel : SelState := ⟨false, some 2, some 8, some ("Sales", "Range"), some (0, 10)⟩

/-- A settled state holding the instants of the spec's ISO example. -/
def exStateIso : SelState :=
  ⟨false, some 1704067200000, some 1735689599999, some ("Sales", "Range"), some (0, 1)⟩

/-- Two plain points spanning [0, 10]. -/
def exPtA : TimeDataPoint := ⟨0, some 1, "default", none, none, none, none, 0⟩

/-- Second point of the [0, 10] pair. -/
def exPtB : TimeDataPoint := ⟨10, some 2, "default", none, none, none, none, 1⟩

/-- A sorted series with uniform spacing 1 and one 5-wide gap. -/
def exGapPts : List TimeDataPoint :=
  [⟨0, some 1, "A", none, none, none, none, 0⟩,
   ⟨1, some 2, "A", none, none, none, none, 1⟩,
   ⟨2, some 3, "A", none, none, none, none, 2⟩,
   ⟨3, some 4, "A", none, none, none, none, 3⟩,
   ⟨8, some 5, "A", none, none, none, none, 4⟩]

/-- Two series with disjoint values 10 and 1000. -/
def exMultiPts : List TimeDataPoint :=
  [⟨0, some 10, "A", none, none, none, none, 0⟩,
   ⟨1, some 1000, "B", none, none, none, none, 1⟩]

/-- The timestamp role. -/
def tsRole : ColumnRoles := ⟨true, false, false, false, false⟩

/-- The values role. -/
def valRole : ColumnRoles := ⟨false, true, false, false, false⟩

/-- A timestamp column with a duplicated instant. -/
def exDupCat : CategoryColumn :=
  ⟨tsRole, [.date 0, .date 0], [], some "Table.Time", "Time"⟩

/-- A value group for the duplicated-instant column. -/
def exDupGroup : SeriesGroup := ⟨none, [⟨valRole, [.num 1, .num 2]⟩]⟩

/-- A timestamp column with an unparseable first cell. -/
def exBadCat : CategoryColumn :=
  ⟨tsRole, [.str "bad", .date 5], [], some "Table.Time", "Time"⟩

/-- A value group whose second cell is null. -/
def exBadGroup : SeriesGroup := ⟨none, [⟨valRole, [.num 1, .nullv]⟩]⟩

/-- A timestamp column with spacing 1 and one 5-wide gap. -/
def exGapCat : CategoryColumn :=
  ⟨tsRole, [.date 0, .date 1, .date 2, .date 3, .date 8], [],
   some "Table.Time", "Time"⟩

/-- A fully numeric value group for the gap column. -/
def exGapGroup : SeriesGroup :=
  ⟨none, [⟨valRole, [.num 1, .num 2, .num 3, .num 4, .num 5]⟩]⟩

/-- A single point whose value is 0. -/
def exZeroPt : TimeDataPoint := ⟨0, some 0, "default", none, none, none, none, 0⟩

theorem restoreBrushSelection_emits_nothing (cfg : OutputCfg)
    (domain : Int × Int) (w : ℚ) (st : SelState) :
    (restoreBrushSelection cfg domain w st).2 = [] := by
  unfold restoreBrushSelection
  cases h1 : st.selectedStartDate with
  | none => simp
  | some s =>
    cases h2 : st.selectedEndDate with
    | none => simp
    | some e => simp [onBrushEnd, onBrush]

/-- C1: a programmatic brush restore — as performed after a resize with
unchanged time extent — never triggers a filter submission to the host:
across a resize-only update cycle the render takes the restore path and the
brush-end handler, firing while the programmatic-update guard is set, makes
zero `applyJsonFilter` calls. -/
theorem resize_restore_never_applies_filter (cfg : OutputCfg) (st : SelState)
    (data : List TimeDataPoint) (w : ℚ) (a b : Int)
    (hext : st.lastTimeRange = some (timeExtent data))
    (hs : st.selectedStartDate = some a)
    (he : st.selectedEndDate = some b) :
    (renderChartBrush cfg st data w).2.1 = .restore ∧
    (renderChartBrush cfg st data w).2.2 = [] := by
  unfold renderChartBrush renderChartSel
  simp [hext, hs, he, restoreBrushSelection_emits_nothing]

/-- Witness for C1: on concrete data with extent [0, 10] and retained
selection [2, 8], a resize-only render emits no filter. -/
theorem resize_restore_never_applies_filter_witness :
    (renderChartBrush exCfgISO exStateSel [exPtA, exPtB] 100).2.1 =
        BrushPlacement.restore ∧
    (renderChartBrush exCfgISO exStateSel [exPtA, exPtB] 100).2.2 = [] :=
  resize_restore_never_applies_filter exCfgISO exStateSel [exPtA, exPtB] 100 2 8
    (by decide) rfl rfl

/-- C2: when the merged data's extent differs from the previous render's
recorded extent, the prior selection is discarded and reset to the full new
extent (with a forced full-range placement); when the extent is unchanged,
the prior selection is preserved and restored. -/
theorem extent_change_resets_selection (st : SelState)
    (min1 max1 : Int) (a b : Int) (ext2 : Int × Int)
    (hlast : st.lastTimeRange = some (min1, max1))
    (hs : st.selectedStartDate = some a)
    (he : st.selectedEndDate = some b) :
    (ext2 ≠ (min1, max1) →
      (renderChartSel st ext2).1.selectedStartDate = some ext2.1 ∧
      (renderChartSel st ext2).1.selectedEndDate = some ext2.2 ∧
      (renderChartSel st ext2).2 = .forceFullRange) ∧
    (ext2 = (min1, max1) →
      (renderChartSel st ext2).1.selectedStartDate = some a ∧
      (renderChartSel st ext2).1.selectedEndDate = some b ∧
      (renderChartSel st ext2).2 = .restore) := by
  constructor
  · intro hne
    have hne' : (min1, max1) ≠ ext2 := fun h => hne h.symm
    simp [renderChartSel, hlast, hne', hs, he]
  · intro heq
    subst heq
    simp [renderChartSel, hlast, hs, he]

/-- Witness for C2: from recorded extent [0, 10] and selection [2, 8], an
update with extent (5, 9) resets the selection to [5, 9] and forces a
full-range placement, while an update with extent (0, 10) preserves [2, 8]
and restores. -/
theorem extent_change_resets_selection_witness :
    ((renderChartSel exStateSel (5, 9)).1.selectedStartDate = some 5 ∧
     (renderChartSel exStateSel (5, 9)).1.selectedEndDate = some 9 ∧
     (renderChartSel exStateSel (5, 9)).2 = .forceFullRange) ∧
    ((renderChartSel exStateSel (0, 10)).1.selectedStartDate = some 2 ∧
     (renderChartSel exStateSel (0, 10)).1.selectedEndDate = some 8 ∧
     (renderChartSel exStateSel (0, 10)).2 = .restore) :=
  ⟨(extent_change_resets_selection exStateSel 0 10 2 8 (5, 9) rfl rfl rfl).1
      (by decide),
   (extent_change_resets_selection exStateSel 0 10 2 8 (0, 10) rfl rfl rfl).2
      rfl⟩

/-- C3: a user-initiated brush release with a selection and a filter target
emits exactly the operand `formattedStart ++ delimiter ++ formattedEnd`,
where each endpoint is rendered by `toISOString` (fixed millisecond-precision
UTC ISO-8601) in ISO mode and by the `createDateFormatter` token-substitution
language otherwise. -/
theorem user_release_emits_concatenated_range (cfg : OutputCfg)
    (domain : Int × Int) (st : SelState) (sel : ℚ × ℚ) (s e : Int)
    (tgt : String × String)
    (hflag : st.isProgrammaticBrushUpdate = false)
    (hs : st.selectedStartDate = some s)
    (he : st.selectedEndDate = some e)
    (htgt : st.filterColumnTarget = some tgt) :
    (onBrushEnd cfg domain st (some sel)).2 =
      some
        { table := tgt.1
          column := tgt.2
          logicalOperator := "And"
          conditionOperator := "Is"
          conditionValue :=
            (if cfg.useISO then toISOString s
             else createDateFormatter cfg.tzOffset cfg.outputFormat s) ++
              cfg.delimiter ++
              (if cfg.useISO then toISOString e
               else createDateFormatter cfg.tzOffset cfg.outputFormat e) } := by
  simp [onBrushEnd, hflag, hs, he, htgt, formatDateOut]

/-- Witness for C3: in ISO mode with delimiter `|`, releasing the selection
[2024-01-01T00:00:00.000Z, 2024-12-31T23:59:59.999Z] emits the spec's example
operand string. -/
theorem user_release_emits_concatenated_range_witness :
    (onBrushEnd exCfgISO (0, 1) exStateIso (some (0, 1))).2 =
      some
        { table := "Sales"
          column := "Range"
          logicalOperator := "And"
          conditionOperator := "Is"
          conditionValue := "2024-01-01T00:00:00.000Z|2024-12-31T23:59:59.999Z" } :=
  (user_release_emits_concatenated_range exCfgISO (0, 1) exStateIso (0, 1)
      1704067200000 1735689599999 ("Sales", "Range") rfl rfl rfl rfl).trans
    (by decide)

/-- C10: an update that takes the placeholder path (viewport below 100×50 or
zero parsed points) leaves the selection instants (`selectedStartDate`,
`selectedEndDate`) and the recorded last time extent unchanged — the filter
target, by contrast, is recomputed unconditionally before the check — so a
later update with restored geometry and unchanged data extent still sees the
same selection instants and takes the restore path. -/
theorem placeholder_preserves_selection (cfg : OutputCfg) (js : JsHost)
    (st : SelState) (dv : Option DataViewModel) (w h cw : ℚ)
    (hcond : max 0 w < 100 ∨ max 0 h < 50 ∨ parseData js dv = []) :
    ((updateViz cfg js st dv w h cw).1.selectedStartDate =
        st.selectedStartDate ∧
      (updateViz cfg js st dv w h cw).1.selectedEndDate =
        st.selectedEndDate ∧
      (updateViz cfg js st dv w h cw).1.lastTimeRange = st.lastTimeRange ∧
      (updateViz cfg js st dv w h cw).2.1 = .placeholder) ∧
    (∀ ext, st.lastTimeRange = some ext →
      ∀ a b, st.selectedStartDate = some a → st.selectedEndDate = some b →
        (renderChartSel (updateViz cfg js st dv w h cw).1 ext).2 =
            .restore ∧
          (renderChartSel (updateViz cfg js st dv w h cw).1
              ext).1.selectedStartDate = some a ∧
          (renderChartSel (updateViz cfg js st dv w h cw).1
              ext).1.selectedEndDate = some b) := by
  have hmain : (updateViz cfg js st dv w h cw).1 =
      { st with filterColumnTarget := identifyFilterTarget dv } ∧
      (updateViz cfg js st dv w h cw).2.1 = .placeholder := by
    unfold updateViz
    rcases hcond with hw | hh | hd
    · simp [hw]
    · simp [hh]
    · by_cases hwh : max 0 w < 100 ∨ max 0 h < 50
      · rcases hwh with hw | hh
        · simp [hw]
        · simp [hh]
      · simp [hwh, hd]
  refine ⟨⟨by rw [hmain.1], by rw [hmain.1], by rw [hmain.1], hmain.2⟩, ?_⟩
  intro ext hlast a b hs he
  rw [hmain.1]
  simp [renderChartSel, hlast, hs, he]

/-- Witness for C10: with no data view the update is a placeholder that keeps
the selection [2, 8] and extent (0, 10) — while the filter target is reset —
and a follow-up render at the same extent restores those instants. -/
theorem placeholder_preserves_selection_witness :
    ((updateViz exCfgISO js0 exStateSel none 500 300 100).1.selectedStartDate
        = some 2 ∧
      (updateViz exCfgISO js0 exStateSel none 500 300 100).1.selectedEndDate
        = some 8 ∧
      (updateViz exCfgISO js0 exStateSel none 500 300 100).1.lastTimeRange
        = some (0, 10) ∧
      (updateViz exCfgISO js0 exStateSel none 500 300 100).2.1 =
        UpdateOutcome.placeholder) ∧
    ((renderChartSel (updateViz exCfgISO js0 exStateSel none 500 300 100).1
          (0, 10)).2 = BrushPlacement.restore ∧
      (renderChartSel (updateViz exCfgISO js0 exStateSel none 500 300 100).1
          (0, 10)).1.selectedStartDate = some 2 ∧
      (renderChartSel (updateViz exCfgISO js0 exStateSel none 500 300 100).1
          (0, 10)).1.selectedEndDate = some 8) := by
  have H := placeholder_preserves_selection exCfgISO js0 exStateSel none
    500 300 100 (Or.inr (Or.inr rfl))
  exact ⟨⟨H.1.1, H.1.2.1, H.1.2.2.1, H.1.2.2.2⟩, H.2 (0, 10) rfl 2 8 rfl rfl⟩

/-- Counterexample to C6: a series whose only value is 0 has min = max = 0,
so the claim demands the ±1 expansion [-1, 1]; the code's `|| 1` default
replaces the falsy maximum 0 by 1 and instead pads 10% of [0, 1]. -/
theorem yDomain_padding_counterexample :
    seriesYDomain js0 false none none [exZeroPt] ≠ seriesYDomainClaim [(0 : ℚ)] ∧
    seriesYDomain js0 false none none [exZeroPt] = (-(1 / 10 : ℚ), 11 / 10) ∧
    seriesYDomainClaim [(0 : ℚ)] = (-1, 1) := by
  have h1 : seriesYDomain js0 false none none [exZeroPt] =
      (-(1 / 10 : ℚ), 11 / 10) := by
    simp [seriesYDomain, exZeroPt, jsOrElse, applySetting, List.min?, List.max?]
    norm_num
  have h2 : seriesYDomainClaim [(0 : ℚ)] = (-1, 1) := by
    simp [seriesYDomainClaim, List.min?, List.max?]
  refine ⟨?_, h1, h2⟩
  rw [h1, h2]
  simp only [ne_eq, Prod.mk.injEq, not_and]
  intro h
  norm_num at h

/-- C6 (amended): the per-series value domain is [min, max] over the series'
non-absent values — except that an absent minimum defaults to 0 and a maximum
that is absent or equal to 0 is replaced by 1 — then expanded by ±1 when the
two ends coincide and otherwise padded outward by 10% of the range. -/
theorem jsOrElse_zero (v : Option ℚ) : jsOrElse v 0 = v.getD 0 := by
  cases v with
  | none => rfl
  | some q =>
      by_cases hq : q = 0
      · simp [jsOrElse, hq]
      · simp [jsOrElse, hq]

theorem yDomain_padding_amended (js : JsHost) (isMulti : Bool)
    (pts : List TimeDataPoint) :
    seriesYDomain js isMulti none none pts = seriesYDomainAmended pts := by
  simp only [seriesYDomain, seriesYDomainAmended, jsOrElse_zero]
  cases isMulti <;> cases hmx : (pts.filterMap fun p => p.value).max? <;>
    simp [jsOrElse, applySetting, div_eq_mul_inv, hmx]

theorem isMultiSeriesOf_of_two (data : List TimeDataPoint)
    (h2 : 2 ≤ (seriesNamesOf data).length) : isMultiSeriesOf data = true := by
  simp only [isMultiSeriesOf, Bool.or_eq_true, decide_eq_true_eq,
    Bool.and_eq_true]
  exact Or.inl (by omega)

theorem yDomains_ignore_settings_of_two (js : JsHost) (s1 s2 : Option String)
    (data : List TimeDataPoint) (h2 : 2 ≤ (seriesNamesOf data).length) :
    yDomainsOf js s1 s2 data = yDomainsOf js none none data := by
  have hm := isMultiSeriesOf_of_two data h2
  simp only [yDomainsOf, hm]
  rfl

/-- C7: the manual Y-axis min/max settings can affect the value scales only
when exactly one series is present; with multiple series present the manual
bounds are ignored and each series' domain is its own independently computed
and padded one. -/
theorem manual_axis_bounds_single_series_only (js : JsHost)
    (s1 s2 : Option String) (data : List TimeDataPoint) :
    (2 ≤ (seriesNamesOf data).length →
      yDomainsOf js s1 s2 data = yDomainsOf js none none data) ∧
    (∀ s dom, 2 ≤ (seriesNamesOf data).length →
      (s, dom) ∈ yDomainsOf js s1 s2 data →
      dom = seriesYDomain js true none none
        (data.filter (fun p => decide (seriesKey p = s)))) ∧
    (yDomainsOf js s1 s2 data ≠ yDomainsOf js none none data →
      (seriesNamesOf data).length = 1) := by
  refine ⟨yDomains_ignore_settings_of_two js s1 s2 data, ?_, ?_⟩
  · intro s dom h2 hmem
    have hm := isMultiSeriesOf_of_two data h2
    simp only [yDomainsOf, hm] at hmem
    rcases List.mem_map.1 hmem with ⟨name, _, heq⟩
    injection heq with hname hdom
    subst hname
    exact hdom.symm
  · intro hne
    rcases Nat.lt_or_ge (seriesNamesOf data).length 2 with hlt | hge
    · have h01 : (seriesNamesOf data).length = 0 ∨
          (seriesNamesOf data).length = 1 := by omega
      rcases h01 with h0 | h1
      · exfalso
        apply hne
        have he : seriesNamesOf data = [] := List.length_eq_zero.1 h0
        simp [yDomainsOf, he]
      · exact h1
    · exact absurd (yDomains_ignore_settings_of_two js s1 s2 data hge) hne

/-- Witness for C7: two disjoint-range series get independent padded domains
(9, 11) and (999, 1001), and parseable manual bounds "5"/"7" change nothing. -/
theorem manual_axis_bounds_single_series_only_witness :
    yDomainsOf js1 (some "5") (some "7") exMultiPts =
        yDomainsOf js1 none none exMultiPts ∧
    yDomainsOf js1 none none exMultiPts =
      [("A", (9, 11)), ("B", (999, 1001))] := by
  refine ⟨(manual_axis_bounds_single_series_only js1 (some "5") (some "7")
      exMultiPts).1 (by decide), ?_⟩
  have hnames : seriesNamesOf exMultiPts = ["A", "B"] := by decide
  have hmulti : isMultiSeriesOf exMultiPts = true := by decide
  have hfA : exMultiPts.filter (fun p => decide (seriesKey p = "A")) =
      [⟨0, some 10, "A", none, none, none, none, 0⟩] := by decide
  have hfB : exMultiPts.filter (fun p => decide (seriesKey p = "B")) =
      [⟨1, some 1000, "B", none, none, none, none, 1⟩] := by decide
  have hdA : seriesYDomain js1 true none none
      [⟨0, some 10, "A", none, none, none, none, 0⟩] = (9, 11) := by
    simp [seriesYDomain, jsOrElse, List.min?, List.max?]
    norm_num
  have hdB : seriesYDomain js1 true none none
      [⟨1, some 1000, "B", none, none, none, none, 1⟩] = (999, 1001) := by
    simp [seriesYDomain, jsOrElse, List.min?, List.max?]
    norm_num
  simp [yDomainsOf, hnames, hmulti, hfA, hfB, hdA, hdB]

theorem gapProcessGo_zero_thr (s : String) (m : Int) :
    ∀ (l : List TimeDataPoint) (prev), gapProcessGo s m 0 prev l = l := by
  intro l
  induction l with
  | nil => intro prev; rfl
  | cons c rest ih => intro prev; simp [gapProcessGo, ih]

theorem betweenEach_eq_go (s : String) (m : Int) (hm : 0 < m) :
    ∀ (l : List TimeDataPoint) (prev : TimeDataPoint),
      betweenEach (fun p q => if 3 * m < q.timestamp - p.timestamp
        then [gapPoint s (p.timestamp + m)] else []) (prev :: l) =
      prev :: gapProcessGo s m (m * 3) prev l := by
  intro l
  induction l with
  | nil => intro prev; rfl
  | cons curr rest ih =>
      intro prev
      have h3 : (0 : Int) < m * 3 := by omega
      simp only [betweenEach, gapProcessGo, ih curr]
      simp [h3, mul_comm]

/-- C4: per-series gap insertion — a series with fewer than 2 points, or with
median positive delta 0, is returned unchanged; otherwise, with m the median
positive delta, exactly one synthetic absent-value point (at the earlier
point's timestamp plus m) is inserted for each consecutive pair whose delta
exceeds 3m, and no synthetic point is inserted anywhere else. -/
theorem gap_insertion_characterization (s : String)
    (pts : List TimeDataPoint) :
    (pts.length < 2 → gapProcess s pts = pts) ∧
    (medianDiff pts = 0 → gapProcess s pts = pts) ∧
    (2 ≤ pts.length → 0 < medianDiff pts →
      gapProcess s pts =
        betweenEach (fun p q =>
          if 3 * medianDiff pts < q.timestamp - p.timestamp
          then [gapPoint s (p.timestamp + medianDiff pts)] else []) pts) := by
  refine ⟨fun h => by simp [gapProcess, h], ?_, ?_⟩
  · intro h
    by_cases hl : pts.length < 2
    · simp [gapProcess, hl]
    · cases pts with
      | nil => rfl
      | cons p0 rest =>
          simp only [gapProcess, if_neg hl, h]
          simp [gapProcessGo_zero_thr]
  · intro h2 hm
    have hl : ¬ pts.length < 2 := by omega
    cases pts with
    | nil => simp at h2
    | cons p0 rest =>
        simp only [gapProcess, if_neg hl]
        rw [if_pos hm]
        exact (betweenEach_eq_go s (medianDiff (p0 :: rest)) hm rest p0).symm

/-- Witness for C4: a series with uniform spacing 1 and one 5-wide gap gets
exactly one synthetic absent-value point, inserted at timestamp 4. -/
theorem gap_insertion_characterization_witness :
    gapProcess "A" exGapPts =
      [⟨0, some 1, "A", none, none, none, none, 0⟩,
       ⟨1, some 2, "A", none, none, none, none, 1⟩,
       ⟨2, some 3, "A", none, none, none, none, 2⟩,
       ⟨3, some 4, "A", none, none, none, none, 3⟩,
       gapPoint "A" 4,
       ⟨8, some 5, "A", none, none, none, none, 4⟩] :=
  ((gap_insertion_characterization "A" exGapPts).2.2 (by decide)
      (by decide)).trans (by decide)

theorem mem_firstKeysAux :
    ∀ (l seen : List String) (a : String), a ∈ l → a ∉ seen →
      a ∈ firstKeysAux seen l := by
  intro l
  induction l with
  | nil => intro seen a ha _; cases ha
  | cons k rest ih =>
      intro seen a ha hna
      by_cases hk : k ∈ seen
      · simp only [firstKeysAux, if_pos hk]
        rcases List.mem_cons.1 ha with rfl | ha'
        · exact absurd hk hna
        · exact ih seen a ha' hna
      · simp only [firstKeysAux, if_neg hk]
        by_cases hak : a = k
        · subst hak; exact List.mem_cons_self _ _
        · rcases List.mem_cons.1 ha with rfl | ha'
          · exact absurd rfl hak
          · refine List.mem_cons_of_mem _ (ih (k :: seen) a ha' ?_)
            intro hmem
            rcases List.mem_cons.1 hmem with h1 | h2
            · exact hak h1
            · exact hna h2

theorem mem_firstKeys (l : List String) (a : String) (ha : a ∈ l) :
    a ∈ firstKeys l :=
  mem_firstKeysAux l [] a ha (by simp)

theorem sortByTime_perm (l : List TimeDataPoint) : (sortByTime l).Perm l :=
  @List.perm_insertionSort _ _ tsLeDec l

theorem sortByTime_sorted (l : List TimeDataPoint) :
    List.Sorted (fun a b : TimeDataPoint => a.timestamp ≤ b.timestamp)
      (sortByTime l) :=
  @List.sorted_insertionSort _ _ tsLeDec tsLeTotal tsLeTrans l

theorem gapProcessGo_mem (s : String) (m thr : Int) :
    ∀ (l : List TimeDataPoint) (prev q), q ∈ gapProcessGo s m thr prev l →
      q ∈ l ∨ ∃ t, q = gapPoint s t := by
  intro l
  induction l with
  | nil => intro prev q hq; cases hq
  | cons curr rest ih =>
      intro prev q hq
      simp only [gapProcessGo] at hq
      rcases List.mem_append.1 hq with h1 | h2
      · by_cases hc : 0 < thr ∧ thr < curr.timestamp - prev.timestamp
        · rw [if_pos hc] at h1
          simp only [List.mem_singleton] at h1
          exact Or.inr ⟨_, h1⟩
        · rw [if_neg hc] at h1
          cases h1
      · rcases List.mem_cons.1 h2 with rfl | h3
        · exact Or.inl (List.mem_cons_self _ _)
        · rcases ih curr q h3 with h4 | h5
          · exact Or.inl (List.mem_cons_of_mem _ h4)
          · exact Or.inr h5

theorem gapProcessGo_mem_of_mem (s : String) (m thr : Int) :
    ∀ (l : List TimeDataPoint) (prev q), q ∈ l →
      q ∈ gapProcessGo s m thr prev l := by
  intro l
  induction l with
  | nil => intro prev q h; cases h
  | cons curr rest ih =>
      intro prev q h
      simp only [gapProcessGo]
      refine List.mem_append.2 (Or.inr ?_)
      rcases List.mem_cons.1 h with rfl | h'
      · exact List.mem_cons_self _ _
      · exact List.mem_cons_of_mem _ (ih curr q h')

theorem gapProcess_mem (s : String) (pts : List TimeDataPoint)
    (q : TimeDataPoint) (hq : q ∈ gapProcess s pts) :
    q ∈ pts ∨ ∃ t, q = gapPoint s t := by
  unfold gapProcess at hq
  by_cases hl : pts.length < 2
  · rw [if_pos hl] at hq; exact Or.inl hq
  · rw [if_neg hl] at hq
    cases pts with
    | nil => exact absurd (by simp) hl
    | cons p0 rest =>
        rcases List.mem_cons.1 hq with rfl | h'
        · exact Or.inl (List.mem_cons_self _ _)
        · rcases gapProcessGo_mem s _ _ rest p0 q h' with h1 | h2
          · exact Or.inl (List.mem_cons_of_mem _ h1)
          · exact Or.inr h2

theorem gapProcess_mem_of_mem (s : String) (pts : List TimeDataPoint)
    (q : TimeDataPoint) (hq : q ∈ pts) : q ∈ gapProcess s pts := by
  unfold gapProcess
  by_cases hl : pts.length < 2
  · rw [if_pos hl]; exact hq
  · rw [if_neg hl]
    cases pts with
    | nil => cases hq
    | cons p0 rest =>
        rcases List.mem_cons.1 hq with rfl | h'
        · exact List.mem_cons_self _ _
        · exact List.mem_cons_of_mem _
            (gapProcessGo_mem_of_mem s _ _ rest p0 q h')

theorem mem_postProcess_of_mem {l : List TimeDataPoint} {p : TimeDataPoint}
    (hp : p ∈ l) : p ∈ postProcess l := by
  unfold postProcess
  apply ((sortByTime_perm _).mem_iff).2
  apply List.mem_flatMap.2
  refine ⟨seriesKey p, mem_firstKeys _ _ (List.mem_map_of_mem _ hp), ?_⟩
  apply gapProcess_mem_of_mem
  apply ((sortByTime_perm _).mem_iff).2
  exact List.mem_filter.2 ⟨hp, by simp⟩

theorem mem_postProcess {l : List TimeDataPoint} {p : TimeDataPoint}
    (hp : p ∈ postProcess l) : p ∈ l ∨ ∃ s t, p = gapPoint s t := by
  unfold postProcess at hp
  have hp2 := ((sortByTime_perm _).mem_iff).1 hp
  rcases List.mem_flatMap.1 hp2 with ⟨s, _, hq⟩
  rcases gapProcess_mem s _ p hq with h1 | h2
  · have h3 := ((sortByTime_perm _).mem_iff).1 h1
    exact Or.inl (List.mem_filter.1 h3).1
  · exact Or.inr ⟨s, h2⟩

/-- Counterexample to C5: two rows with the same instant in one series survive
model construction as two points with equal timestamps, so the within-series
order is not strictly increasing. -/
theorem series_strictly_increasing_counterexample :
    ¬ List.Pairwise (fun a b : TimeDataPoint => a.timestamp < b.timestamp)
      ((parseData js0 (mkDataView [exDupCat] [exDupGroup])).filter
        (fun p => decide (seriesKey p = "default"))) := by decide

/-- C5 (amended): after model construction the points of each single series
are non-decreasing in timestamp (consecutive equal timestamps arise exactly
from duplicate instants in the input, so strictness does not hold). -/
theorem series_time_nondecreasing (js : JsHost) (dv : Option DataViewModel)
    (s : String) :
    List.Pairwise (fun a b : TimeDataPoint => a.timestamp ≤ b.timestamp)
      ((parseData js dv).filter (fun p => decide (seriesKey p = s))) := by
  have h : List.Sorted (fun a b : TimeDataPoint => a.timestamp ≤ b.timestamp)
      (parseData js dv) := by
    unfold parseData postProcess
    exact sortByTime_sorted _
  exact h.filter _

theorem mem_groupPoints {js : JsHost} {tsCat : CategoryColumn}
    {markers : List (Int × String)} {g : SeriesGroup} {p : TimeDataPoint} :
    p ∈ groupPoints js tsCat markers g ↔
      ∃ i, i < tsCat.values.length ∧
        ∃ t, parseDate js (tsCat.values.getD i .undef) = some t ∧
          groupPoint js tsCat markers g i t = p := by
  simp [groupPoints, List.mem_filterMap, List.mem_range, Option.map_eq_some']

theorem mem_rawPoints {js : JsHost} {cats : List CategoryColumn}
    {groups : List SeriesGroup} {tsCat : CategoryColumn} {p : TimeDataPoint}
    (hfind : cats.find? (fun c => c.roles.timestamp) = some tsCat) :
    p ∈ rawPoints js (mkDataView cats groups) ↔
      ∃ g ∈ groups,
        p ∈ groupPoints js tsCat (globalMarkers js tsCat.values groups) g := by
  have hne : cats.isEmpty = false := by
    cases cats with
    | nil => simp at hfind
    | cons c cs => rfl
  by_cases hts : tsCat.values.isEmpty
  · have hlen : tsCat.values.length = 0 := by
      rw [List.isEmpty_iff.1 hts]; rfl
    constructor
    · intro hp
      exfalso
      simp [rawPoints, mkDataView, hfind, hne, hts] at hp
    · intro ⟨g, _, hgp⟩
      exfalso
      rcases mem_groupPoints.1 hgp with ⟨i, hi, _⟩
      omega
  · simp [rawPoints, mkDataView, hfind, hne, hts, List.mem_flatMap]

theorem postProcess_nil : postProcess [] = [] := rfl

/-- C8: model construction never throws (the embedding is total); a row whose
timestamp cell fails to parse is skipped entirely — no point in any group
carries its row index; a row whose value cell is missing or fails numeric
coercion is still emitted as a point with an absent value; and a missing or
empty required timestamp column yields an empty model. -/
theorem parse_error_handling (js : JsHost) (cats : List CategoryColumn)
    (groups : List SeriesGroup) (tsCat : CategoryColumn)
    (hfind : cats.find? (fun c => c.roles.timestamp) = some tsCat) :
    (∀ i : Nat, parseDate js (tsCat.values.getD i .undef) = none →
      ∀ p ∈ parseData js (mkDataView cats groups), p.index ≠ (i : Int)) ∧
    (∀ g ∈ groups, ∀ (i : Nat) (t : Int), i < tsCat.values.length →
      parseDate js (tsCat.values.getD i .undef) = some t →
      rowValue js g i = none →
      groupPoint js tsCat (globalMarkers js tsCat.values groups) g i t ∈
          parseData js (mkDataView cats groups) ∧
        (groupPoint js tsCat (globalMarkers js tsCat.values groups) g i t).value
          = none) ∧
    (parseData js none = [] ∧
      (∀ cats2 groups2, cats2.find? (fun c => c.roles.timestamp) = none →
        parseData js (mkDataView cats2 groups2) = []) ∧
      (∀ cats2 groups2 tsCat2,
        cats2.find? (fun c => c.roles.timestamp) = some tsCat2 →
        tsCat2.values = [] → parseData js (mkDataView cats2 groups2) = [])) := by
  refine ⟨?_, ?_, rfl, ?_, ?_⟩
  · intro i hnone p hp hidx
    have hp' : p ∈ postProcess (rawPoints js (mkDataView cats groups)) := hp
    rcases mem_postProcess hp' with hraw | ⟨s, t, rfl⟩
    · rcases (mem_rawPoints hfind).1 hraw with ⟨g, _, hgp⟩
      rcases mem_groupPoints.1 hgp with ⟨j, _, t, hparse, hpeq⟩
      have hj : ((j : Int)) = (i : Int) := by rw [← hpeq] at hidx; exact hidx
      have : j = i := by exact_mod_cast hj
      subst this
      rw [hnone] at hparse
      cases hparse
    · simp [gapPoint] at hidx
  · intro g hg i t hlt hparse hval
    refine ⟨?_, ?_⟩
    · have hm : groupPoint js tsCat (globalMarkers js tsCat.values groups) g i t
          ∈ rawPoints js (mkDataView cats groups) :=
        (mem_rawPoints hfind).2 ⟨g, hg, mem_groupPoints.2 ⟨i, hlt, t, hparse, rfl⟩⟩
      exact mem_postProcess_of_mem hm
    · simp [groupPoint, hval]
  · intro cats2 groups2 hnone2
    have hraw : rawPoints js (mkDataView cats2 groups2) = [] := by
      by_cases hc : cats2.isEmpty
      · simp [rawPoints, mkDataView, hc]
      · simp [rawPoints, mkDataView, hc, hnone2]
    show postProcess (rawPoints js (mkDataView cats2 groups2)) = []
    rw [hraw, postProcess_nil]
  · intro cats2 groups2 tsCat2 hfind2 hvals2
    have hraw : rawPoints js (mkDataView cats2 groups2) = [] := by
      have hc : cats2.isEmpty = false := by
        cases cats2 with
        | nil => simp at hfind2
        | cons c cs => rfl
      simp [rawPoints, mkDataView, hc, hfind2, hvals2]
    show postProcess (rawPoints js (mkDataView cats2 groups2)) = []
    rw [hraw, postProcess_nil]

/-- Witness for C8: in a model whose first timestamp cell is unparseable and
whose second value cell is null, the second row is emitted as an absent-value
point. -/
theorem parse_error_handling_witness :
    groupPoint js0 exBadCat (globalMarkers js0 exBadCat.values [exBadGroup])
        exBadGroup 1 5 ∈
      parseData js0 (mkDataView [exBadCat] [exBadGroup]) ∧
    (groupPoint js0 exBadCat (globalMarkers js0 exBadCat.values [exBadGroup])
        exBadGroup 1 5).value = none :=
  (parse_error_handling js0 [exBadCat] [exBadGroup] exBadCat rfl).2.1
    exBadGroup (by decide) 1 5 (by decide) (by decide) (by decide)

theorem uniqueMarkersStep_marker (m : List (Int × TimeDataPoint))
    (d : TimeDataPoint)
    (hm : ∀ kv ∈ m, kv.2.timelineMarker ≠ none) :
    ∀ kv ∈ uniqueMarkersStep m d, kv.2.timelineMarker ≠ none := by
  intro kv hkv
  unfold uniqueMarkersStep at hkv
  by_cases hd : d.timelineMarker ≠ none
  · rw [if_pos hd] at hkv
    cases hfind : m.find? (fun kv => decide (kv.1 = d.timestamp)) with
    | some kv0 =>
        rw [hfind] at hkv
        rcases List.mem_map.1 hkv with ⟨kv1, hkv1, heq⟩
        by_cases hts : kv1.1 = d.timestamp
        · rw [if_pos hts] at heq; rw [← heq]; exact hd
        · rw [if_neg hts] at heq; rw [← heq]; exact hm kv1 hkv1
    | none =>
        rw [hfind] at hkv
        rcases List.mem_append.1 hkv with h1 | h2
        · exact hm kv h1
        · simp only [List.mem_singleton] at h2
          rw [h2]
          exact hd
  · rw [if_neg hd] at hkv
    exact hm kv hkv

theorem mem_uniqueMarkersOf_marker (data : List TimeDataPoint) :
    ∀ kv ∈ uniqueMarkersOf data, kv.2.timelineMarker ≠ none := by
  have key : ∀ (l : List TimeDataPoint) (acc : List (Int × TimeDataPoint)),
      (∀ kv ∈ acc, kv.2.timelineMarker ≠ none) →
      ∀ kv ∈ l.foldl uniqueMarkersStep acc, kv.2.timelineMarker ≠ none := by
    intro l
    induction l with
    | nil => intro acc hacc; simpa using hacc
    | cons d rest ih =>
        intro acc hacc
        simp only [List.foldl_cons]
        exact ih _ (uniqueMarkersStep_marker acc d hacc)
  exact key data [] (by simp)

theorem mem_timelinePointsOf_marker (data : List TimeDataPoint)
    (q : TimeDataPoint) (hq : q ∈ timelinePointsOf data) :
    q.timelineMarker ≠ none := by
  unfold timelinePointsOf at hq
  rcases List.mem_map.1 hq with ⟨kv, hkv, rfl⟩
  exact mem_uniqueMarkersOf_marker data kv hkv

/-- C9: every synthetic gap point carries an absent value, no anomaly, no
timeline marker, and the sentinel index -1; consequently synthetic points
never appear among the scene's anomaly-marker points or timeline-marker
points. -/
theorem synthetic_points_inert (js : JsHost) (dv : Option DataViewModel)
    (p : TimeDataPoint) (hp : p ∈ parseData js dv)
    (hraw : p ∉ rawPoints js dv) :
    (p.value = none ∧ p.anomaly = none ∧ p.timelineMarker = none ∧
      p.index = -1) ∧
    p ∉ anomalyPointsOf (parseData js dv) ∧
    p ∉ timelinePointsOf (parseData js dv) := by
  have hp' : p ∈ postProcess (rawPoints js dv) := hp
  have hgap : ∃ s t, p = gapPoint s t := by
    rcases mem_postProcess hp' with h1 | h2
    · exact absurd h1 hraw
    · exact h2
  rcases hgap with ⟨s, t, rfl⟩
  refine ⟨⟨rfl, rfl, rfl, rfl⟩, ?_, ?_⟩
  · intro hmem
    have h2 := (List.mem_filter.1 hmem).2
    simp [gapPoint, anomalyPointsOf] at h2
  · intro hmem
    exact mem_timelinePointsOf_marker _ _ hmem rfl

/-- Witness for C9: the synthetic point inserted at timestamp 4 of the gap
model is in the model, is not a raw point, and is absent from the anomaly and
timeline marker collections. -/
theorem synthetic_points_inert_witness :
    ((gapPoint "default" 4).value = none ∧
      (gapPoint "default" 4).anomaly = none ∧
      (gapPoint "default" 4).timelineMarker = none ∧
      (gapPoint "default" 4).index = -1) ∧
    gapPoint "default" 4 ∉
      anomalyPointsOf (parseData js0 (mkDataView [exGapCat] [exGapGroup])) ∧
    gapPoint "default" 4 ∉
      timelinePointsOf (parseData js0 (mkDataView [exGapCat] [exGapGroup])) :=
  synthetic_points_inert js0 (mkDataView [exGapCat] [exGapGroup])
    (gapPoint "default" 4) (by decide) (by decide)
